import Mathlib

/-!
Verification of the CCA multi-criteria analyser calculation engine
(`src/services/calculatorService.ts`), embedded shallowly in Lean 4.

Numbers (TypeScript `number`) are modelled as `Rat`, so every arithmetic
identity below is exact over the rationals; floating-point rounding is out
of scope.  JavaScript `Date` values are modelled as calendar dates
(year/month/day records): `new Date(y, m, 1)` month-overflow normalisation
is made explicit (`mkInjectionDate`), `getTime` is the Unix-epoch day
number times 86400000 (`getTime`, via the standard civil-calendar day
count), and `Date` comparison is the lexicographic order on
(year, month, day), which agrees with timestamp order on calendar dates.
-/

/-- The two beneficiary classifications (`PersonType` in `src/types`):
`"Personne Morale"` and `"Personne Physique"`. -/
inductive PersonType where
  | morale
  | physique
deriving DecidableEq, Repr, Inhabited

/-- The two accrual bases (`CalculationBase`): `"Mensuel"` and `"Journalier"`. -/
inductive CalculationBase where
  | mensuel
  | journalier
deriving DecidableEq, Repr, Inhabited

/-- A calendar date, modelling a JavaScript `Date` at local midnight. -/
@[ext]
structure CCADate where
  year : Int
  month : Int
  day : Int
deriving DecidableEq, Repr, Inhabited

/-- One capital injection (`CCAPeriod` in `src/types`). -/
structure CCAPeriod where
  id : String
  month : Int
  year : Int
  amount : Rat
  pctPart1 : Rat
  typePart1 : PersonType
  typePart2 : PersonType
deriving DecidableEq, Repr, Inhabited

/-- The engine's input (`CCAConfig` in `src/types`); `splitMode` is omitted
because the calculation engine never reads it, and the end date is held as a
calendar date (string parsing is out of scope). -/
structure CCAConfig where
  periods : List CCAPeriod
  annualRate : Rat
  tvaRate : Rat
  rasMoraleRate : Rat
  rasPhysiqueRate : Rat
  endDate : CCADate
  calculationBase : CalculationBase
deriving DecidableEq, Repr, Inhabited

/-- One Period Result (`CalculationResult` in `src/types`). -/
structure CalculationResult where
  id : String
  periodLabel : String
  dateDeblocage : CCADate
  amountTotal : Rat
  durationValue : Int
  durationUnit : String
  montantPart1 : Rat
  pctPart1 : Rat
  typePart1 : PersonType
  interestHT1 : Rat
  tva1 : Rat
  rasRate1 : Rat
  ras1 : Rat
  interestTTC1 : Rat
  net1 : Rat
  montantPart2 : Rat
  pctPart2 : Rat
  typePart2 : PersonType
  interestHT2 : Rat
  tva2 : Rat
  rasRate2 : Rat
  ras2 : Rat
  interestTTC2 : Rat
  net2 : Rat
deriving DecidableEq, Repr, Inhabited

/-- One Monthly Accrual Record (`MonthlyAccrual` in `src/types`). -/
structure MonthlyAccrual where
  month : Int
  year : Int
  activeCapital : Rat
  interestHT : Rat
  tva : Rat
  ras : Rat
  net : Rat
deriving DecidableEq, Repr, Inhabited

/-- The Financial Summary (`FinancialSummary` in `src/types`). -/
@[ext]
structure FinancialSummary where
  totalCapital : Rat
  totalInterestHT : Rat
  totalInterestHT1 : Rat
  totalInterestHT2 : Rat
  totalInterestTTC : Rat
  totalTVA : Rat
  totalRAS : Rat
  totalRAS1 : Rat
  totalRAS2 : Rat
  netTotal : Rat
  totalRepayment : Rat
deriving DecidableEq, Repr, Inhabited

/-- `new Date(p.year, p.month - 1, 1)`: the first day of the injection's
month, with JavaScript's month-overflow normalisation (month argument
`p.month - 1` is reduced modulo 12 with floor-style carry into the year). -/
def mkInjectionDate (y m : Int) : CCADate :=
  ⟨y + (m - 1) / 12, (m - 1) % 12 + 1, 1⟩

/-- JavaScript `Date` comparison `a < b` (timestamp order), expressed as the
lexicographic order on (year, month, day). -/
def dateLt (a b : CCADate) : Bool :=
  decide (a.year < b.year) ||
    (decide (a.year = b.year) &&
      (decide (a.month < b.month) ||
        (decide (a.month = b.month) && decide (a.day < b.day))))

/-- JavaScript `Date` comparison `a <= b`, i.e. `!(b < a)`. -/
def dateLE (a b : CCADate) : Bool := !(dateLt b a)

/-- Day number of a civil calendar date relative to the Unix epoch
(1970-01-01 is day 0); the standard days-from-civil computation that
underlies `Date.getTime()`. -/
def daysFromCivil (dt : CCADate) : Int :=
  let y : Int := if dt.month ≤ 2 then dt.year - 1 else dt.year
  let era : Int := y / 400
  let yoe : Int := y - era * 400
  let mp : Int := (dt.month + 9) % 12
  let doy : Int := (153 * mp + 2) / 5 + dt.day - 1
  let doe : Int := yoe * 365 + yoe / 4 - yoe / 100 + doy
  era * 146097 + doe - 719468

/-- Milliseconds per day, the divisor `1000 * 60 * 60 * 24` of the source. -/
def msPerDay : Int := 86400000

/-- `Date.getTime()`: milliseconds since the Unix epoch (dates sit at
midnight, so this is the day number times `msPerDay`). -/
def getTime (d : CCADate) : Int := daysFromCivil d * msPerDay

/-- `Math.ceil(a / b)` for integer `a` and positive integer `b`. -/
def ceilDiv (a b : Int) : Int := -((-a) / b)

/-- The duration computed by `calculateCCAResults` for one injection:
`Mensuel` counts calendar months inclusively (clamped to 0 when the end
date precedes the injection date); `Journalier` takes the ceiling of the
elapsed milliseconds (clamped to 0) divided by one day. -/
def durationFor (base : CalculationBase) (endD injectionDate : CCADate) : Int :=
  match base with
  | .mensuel =>
      let v := (endD.year - injectionDate.year) * 12 +
        ((endD.month - 1) - (injectionDate.month - 1)) + 1
      if dateLt endD injectionDate then 0 else v
  | .journalier =>
      let durationInMs := getTime endD - getTime injectionDate
      let durationInMs := if durationInMs < 0 then 0 else durationInMs
      ceilDiv durationInMs msPerDay

/-- `getRasRate` of the source: Moral persons use the Moral withholding
rate, Natural persons the Natural one (already divided by 100). -/
def getRasRate (cfg : CCAConfig) (t : PersonType) : Rat :=
  match t with
  | .morale => cfg.rasMoraleRate / 100
  | .physique => cfg.rasPhysiqueRate / 100

/-- The body of the `periods.map` in `calculateCCAResults`: evaluate one
injection to its Period Result. -/
def calcOne (cfg : CCAConfig) (p : CCAPeriod) : CalculationResult :=
  let injectionDate := mkInjectionDate p.year p.month
  let durationValue := durationFor cfg.calculationBase cfg.endDate injectionDate
  let amountTotal := p.amount
  let pct1 := p.pctPart1 / 100
  let pct2 := 1 - pct1
  let montantPart1 := amountTotal * pct1
  let montantPart2 := amountTotal * pct2
  let tRate := cfg.annualRate / 100
  let interestHT1 :=
    match cfg.calculationBase with
    | .mensuel => montantPart1 * tRate * (durationValue : Rat) / 12
    | .journalier => montantPart1 * tRate * (durationValue : Rat) / 360
  let interestHT2 :=
    match cfg.calculationBase with
    | .mensuel => montantPart2 * tRate * (durationValue : Rat) / 12
    | .journalier => montantPart2 * tRate * (durationValue : Rat) / 360
  let tva1 := interestHT1 * (cfg.tvaRate / 100)
  let tva2 := interestHT2 * (cfg.tvaRate / 100)
  let interestTTC1 := interestHT1 + tva1
  let interestTTC2 := interestHT2 + tva2
  let rasRate1 := getRasRate cfg p.typePart1
  let rasRate2 := getRasRate cfg p.typePart2
  let ras1 := interestHT1 * rasRate1
  let ras2 := interestHT2 * rasRate2
  let net1 := interestTTC1 - ras1
  let net2 := interestTTC2 - ras2
  { id := p.id
    periodLabel := toString p.month ++ "/" ++ toString p.year
    dateDeblocage := injectionDate
    amountTotal := amountTotal
    durationValue := durationValue
    durationUnit := match cfg.calculationBase with
      | .mensuel => "Mois"
      | .journalier => "Jours"
    montantPart1 := montantPart1
    pctPart1 := p.pctPart1
    typePart1 := p.typePart1
    interestHT1 := interestHT1
    tva1 := tva1
    rasRate1 := rasRate1 * 100
    ras1 := ras1
    interestTTC1 := interestTTC1
    net1 := net1
    montantPart2 := montantPart2
    pctPart2 := 100 - p.pctPart1
    typePart2 := p.typePart2
    interestHT2 := interestHT2
    tva2 := tva2
    rasRate2 := rasRate2 * 100
    ras2 := ras2
    interestTTC2 := interestTTC2
    net2 := net2 }

/-- `calculateCCAResults`: one Period Result per injection, in input order. -/
def calculateCCAResults (cfg : CCAConfig) : List CalculationResult :=
  cfg.periods.map (calcOne cfg)

/-- The worked-scenario configuration of the specification: one injection
of 100000 in 2025-02 split 80/20 between a Moral and a Natural person,
rates 5% / 10% / 30% / 15%, Monthly basis, end date 2025-05-31. -/
def c1config : CCAConfig :=
  { periods := [{ id := "1", month := 2, year := 2025, amount := 100000,
                  pctPart1 := 80, typePart1 := PersonType.morale,
                  typePart2 := PersonType.physique }]
    annualRate := 5
    tvaRate := 10
    rasMoraleRate := 30
    rasPhysiqueRate := 15
    endDate := ⟨2025, 5, 31⟩
    calculationBase := CalculationBase.mensuel }

/-- Linear month index of a calendar date: `year * 12 + (month - 1)`.
Two first-of-month dates compare (as timestamps) exactly as their month
indices do. -/
def monthIndex (d : CCADate) : Int := d.year * 12 + (d.month - 1)

/-- The first day of the month with linear month index `idx`; this is the
value of the walker's cursor `curr` after `idx - start` iterations of
`curr.setMonth(curr.getMonth() + 1)` (JavaScript normalises the month
overflow exactly like this floor division / remainder pair). -/
def firstOfMonthDate (idx : Int) : CCADate := ⟨idx / 12, idx % 12 + 1, 1⟩

/-- `new Date(year, month, 0).getDate()`: the number of days of the
(1-based) month `m` of year `y`. -/
def daysInMonth (y m : Int) : Int :=
  if m = 2 then (if (y % 4 = 0 ∧ y % 100 ≠ 0) ∨ y % 400 = 0 then 29 else 28)
  else if m = 4 ∨ m = 6 ∨ m = 9 ∨ m = 11 then 30
  else 31

/-- The body of the `periods.forEach` inside the walker's month loop: given
the running `(activeCapital, monthInterestHT, monthRAS)` accumulator and an
injection, add the injection's capital and its single-month two-part
interest and withholding when its injection date is on or before the
cursor `curr`. -/
def accrueStep (cfg : CCAConfig) (curr : CCADate) (acc : Rat × Rat × Rat)
    (p : CCAPeriod) : Rat × Rat × Rat :=
  let injectionDate := mkInjectionDate p.year p.month
  if dateLE injectionDate curr then
    let tRate := cfg.annualRate / 100
    let p1 := p.amount * (p.pctPart1 / 100)
    let p2 := p.amount * (1 - p.pctPart1 / 100)
    let i1 :=
      match cfg.calculationBase with
      | .mensuel => p1 * tRate / 12
      | .journalier => p1 * tRate * (daysInMonth curr.year curr.month : Rat) / 360
    let i2 :=
      match cfg.calculationBase with
      | .mensuel => p2 * tRate / 12
      | .journalier => p2 * tRate * (daysInMonth curr.year curr.month : Rat) / 360
    let r1 := i1 * getRasRate cfg p.typePart1
    let r2 := i2 * getRasRate cfg p.typePart2
    (acc.1 + p.amount, acc.2.1 + (i1 + i2), acc.2.2 + (r1 + r2))
  else acc

/-- One iteration of the walker's month loop: the Monthly Accrual Record
for the month with linear index `idx`. -/
def monthRecord (cfg : CCAConfig) (idx : Int) : MonthlyAccrual :=
  let curr := firstOfMonthDate idx
  let acc := cfg.periods.foldl (accrueStep cfg curr) (0, 0, 0)
  let monthTVA := acc.2.1 * (cfg.tvaRate / 100)
  let monthNet := (acc.2.1 + monthTVA) - acc.2.2
  { month := curr.month
    year := curr.year
    activeCapital := acc.1
    interestHT := acc.2.1
    tva := monthTVA
    ras := acc.2.2
    net := monthNet }

/-- The walker's minimum-date scan: fold `if (d < minDate) minDate = d`
over the injections, starting from the given initial candidate. -/
def minInjDate (l : List CCAPeriod) (init : CCADate) : CCADate :=
  l.foldl (fun acc p =>
    let d := mkInjectionDate p.year p.month
    if dateLt d acc then d else acc) init

/-- The walker's month loop: one `monthRecord` per month index from
`startIdx` through `endIdx` inclusive (empty when `endIdx < startIdx`). -/
def walkerRange (cfg : CCAConfig) (startIdx endIdx : Int) : List MonthlyAccrual :=
  (List.range (endIdx + 1 - startIdx).toNat).map
    (fun i : Nat => monthRecord cfg (startIdx + (i : Int)))

/-- `calculateMonthlyAccruals`: with no injections, the empty sequence;
otherwise one record per calendar month from the month of the earliest
injection date through the month of the end date.  The source's
`while (curr <= endLimit)` loop starts its cursor at the first of the
earliest injection's month and advances it one month per iteration, so for
a calendar end date (month 1–12, day ≥ 1) the guard holds exactly for the
month indices `startIdx ≤ idx ≤ monthIndex endDate`
(lemma `walker_guard_iff` below); the loop is embedded as the map of
`monthRecord` over that index range (`walkerRange`). -/
def calculateMonthlyAccruals (cfg : CCAConfig) : List MonthlyAccrual :=
  match cfg.periods with
  | [] => []
  | p0 :: _ =>
    walkerRange cfg
      (monthIndex (minInjDate cfg.periods (mkInjectionDate p0.year p0.month)))
      (monthIndex cfg.endDate)

/-- `summarizeResults`'s fold body: add one Period Result's fields into the
running Financial Summary. -/
def sumStep (acc : FinancialSummary) (curr : CalculationResult) : FinancialSummary :=
  { totalCapital := acc.totalCapital + curr.amountTotal
    totalInterestHT := acc.totalInterestHT + curr.interestHT1 + curr.interestHT2
    totalInterestHT1 := acc.totalInterestHT1 + curr.interestHT1
    totalInterestHT2 := acc.totalInterestHT2 + curr.interestHT2
    totalInterestTTC := acc.totalInterestTTC + curr.interestTTC1 + curr.interestTTC2
    totalTVA := acc.totalTVA + curr.tva1 + curr.tva2
    totalRAS := acc.totalRAS + curr.ras1 + curr.ras2
    totalRAS1 := acc.totalRAS1 + curr.ras1
    totalRAS2 := acc.totalRAS2 + curr.ras2
    netTotal := acc.netTotal + curr.net1 + curr.net2
    totalRepayment := acc.totalRepayment + curr.amountTotal + curr.interestTTC1 + curr.interestTTC2 }

/-- The all-zero Financial Summary, `summarizeResults`'s fold seed. -/
def zeroSummary : FinancialSummary :=
  { totalCapital := 0, totalInterestHT := 0, totalInterestHT1 := 0,
    totalInterestHT2 := 0, totalInterestTTC := 0, totalTVA := 0,
    totalRAS := 0, totalRAS1 := 0, totalRAS2 := 0, netTotal := 0,
    totalRepayment := 0 }

/-- `summarizeResults`: fold the Period Results into one Financial Summary. -/
def summarizeResults (results : List CalculationResult) : FinancialSummary :=
  results.foldl sumStep zeroSummary

/-- The worked scenario switched to the Daily basis with end date equal to
the injection date 2025-02-01 (same-day injection). -/
def c3config : CCAConfig :=
  { c1config with
    endDate := ⟨2025, 2, 1⟩
    calculationBase := CalculationBase.journalier }

/-- The worked scenario with its injection list emptied. -/
def c8config : CCAConfig := { c1config with periods := [] }

/-- A sample Period Result used to instantiate order-independence. -/
def sampleResA : CalculationResult :=
  { (default : CalculationResult) with
    amountTotal := 1, interestHT1 := 2, interestHT2 := 3, tva1 := 4,
    ras1 := 5, net2 := 6, interestTTC1 := 7 }

/-- A second, different sample Period Result. -/
def sampleResB : CalculationResult :=
  { (default : CalculationResult) with
    amountTotal := 10, interestHT1 := 20, interestHT2 := 30, tva2 := 40,
    ras2 := 50, net1 := 60, interestTTC2 := 70 }

/-- The walker's starting point: the earliest injection date (first of its
month), as computed by the minimum-date scan over the injections. -/
def earliestInjectionDate (cfg : CCAConfig) : CCADate :=
  match cfg.periods with
  | [] => ⟨1970, 1, 1⟩
  | p0 :: _ => minInjDate cfg.periods (mkInjectionDate p0.year p0.month)

/-- A date that is the first day of a calendar month with an in-range month
number — the shape of every injection date and every walker cursor value. -/
def NormDate (d : CCADate) : Prop := d.day = 1 ∧ 1 ≤ d.month ∧ d.month ≤ 12

/-- Fieldwise addition of two Financial Summaries. -/
def addSummary (a b : FinancialSummary) : FinancialSummary :=
  { totalCapital := a.totalCapital + b.totalCapital
    totalInterestHT := a.totalInterestHT + b.totalInterestHT
    totalInterestHT1 := a.totalInterestHT1 + b.totalInterestHT1
    totalInterestHT2 := a.totalInterestHT2 + b.totalInterestHT2
    totalInterestTTC := a.totalInterestTTC + b.totalInterestTTC
    totalTVA := a.totalTVA + b.totalTVA
    totalRAS := a.totalRAS + b.totalRAS
    totalRAS1 := a.totalRAS1 + b.totalRAS1
    totalRAS2 := a.totalRAS2 + b.totalRAS2
    netTotal := a.netTotal + b.netTotal
    totalRepayment := a.totalRepayment + b.totalRepayment }

/-- The Financial Summary whose every field is the corresponding sum over a
list of Period Results; the closed form of `summarizeResults`. -/
def listSummary (l : List CalculationResult) : FinancialSummary :=
  { totalCapital := (l.map (fun r => r.amountTotal)).sum
    totalInterestHT := (l.map (fun r => r.interestHT1 + r.interestHT2)).sum
    totalInterestHT1 := (l.map (fun r => r.interestHT1)).sum
    totalInterestHT2 := (l.map (fun r => r.interestHT2)).sum
    totalInterestTTC := (l.map (fun r => r.interestTTC1 + r.interestTTC2)).sum
    totalTVA := (l.map (fun r => r.tva1 + r.tva2)).sum
    totalRAS := (l.map (fun r => r.ras1 + r.ras2)).sum
    totalRAS1 := (l.map (fun r => r.ras1)).sum
    totalRAS2 := (l.map (fun r => r.ras2)).sum
    netTotal := (l.map (fun r => r.net1 + r.net2)).sum
    totalRepayment :=
      (l.map (fun r => r.amountTotal + r.interestTTC1 + r.interestTTC2)).sum }

/-- On the Daily basis the computed duration is the day-number difference
between the end date and the injection date, clamped to 0: the elapsed
milliseconds are a whole multiple of one day, so `Math.ceil` is exact. -/
theorem durationFor_journalier (e inj : CCADate) :
    durationFor CalculationBase.journalier e inj =
      max 0 (daysFromCivil e - daysFromCivil inj) := by
  simp only [durationFor, getTime, ceilDiv, msPerDay]
  omega

/-- Claim C1: in the worked scenario (single injection of 100000 in
2025-02, 80% Moral / 20% Natural, rates 5% / 10% / 30% / 15%, Monthly
basis, end date 2025-05-31) the Period Evaluator returns duration 4 and,
within rounding distance 0.01 of the quoted decimals, part 1 interest
1333.33 (exactly `100000 * 0.8 * 0.05 * 4 / 12`), VAT 133.33, withholding
400.00, net 1066.67, and part 2 interest 333.33, withholding 50.00,
net 316.67. -/
theorem c1_worked_scenario :
    (calculateCCAResults c1config).length = 1 ∧
    (calculateCCAResults c1config).headI.durationValue = 4 ∧
    (calculateCCAResults c1config).headI.interestHT1 =
      100000 * (80 / 100) * (5 / 100) * 4 / 12 ∧
    |(calculateCCAResults c1config).headI.interestHT1 - 1333.33| < 1 / 100 ∧
    |(calculateCCAResults c1config).headI.tva1 - 133.33| < 1 / 100 ∧
    (calculateCCAResults c1config).headI.ras1 = 400 ∧
    |(calculateCCAResults c1config).headI.net1 - 1066.67| < 1 / 100 ∧
    (calculateCCAResults c1config).headI.interestHT2 =
      100000 * (20 / 100) * (5 / 100) * 4 / 12 ∧
    |(calculateCCAResults c1config).headI.interestHT2 - 333.33| < 1 / 100 ∧
    (calculateCCAResults c1config).headI.ras2 = 50 ∧
    |(calculateCCAResults c1config).headI.net2 - 316.67| < 1 / 100 := by
  simp only [calculateCCAResults, calcOne, c1config, durationFor, mkInjectionDate,
    dateLt, getRasRate, List.map, List.headI, List.length]
  norm_num [abs_sub_lt_iff, abs_lt]

/-- Claim C2: on the Monthly basis every injection's duration is the
inclusive month count `(endYear - startYear) * 12 + (endMonth - startMonth) + 1`
(with the injection date fixed to the first day of its month/year), and 0
whenever the end date is strictly before the injection date. -/
theorem c2_monthly_duration (cfg : CCAConfig)
    (h : cfg.calculationBase = CalculationBase.mensuel)
    (i : Nat) (h1 : i < cfg.periods.length)
    (h2 : i < (calculateCCAResults cfg).length) :
    ((calculateCCAResults cfg).get ⟨i, h2⟩).durationValue =
      (if dateLt cfg.endDate
          (mkInjectionDate (cfg.periods.get ⟨i, h1⟩).year
            (cfg.periods.get ⟨i, h1⟩).month) then 0
       else
         (cfg.endDate.year -
             (mkInjectionDate (cfg.periods.get ⟨i, h1⟩).year
               (cfg.periods.get ⟨i, h1⟩).month).year) * 12 +
           (cfg.endDate.month -
             (mkInjectionDate (cfg.periods.get ⟨i, h1⟩).year
               (cfg.periods.get ⟨i, h1⟩).month).month) + 1) := by
  simp only [calculateCCAResults, List.get_eq_getElem, List.getElem_map,
    calcOne, durationFor, h]
  split <;> omega

/-- Witness for C2: the worked scenario's injection (2025-02, end date
2025-05-31) has duration 4 months. -/
theorem c2_monthly_duration_witness :
    ((calculateCCAResults c1config).get ⟨0, by decide⟩).durationValue = 4 :=
  (c2_monthly_duration c1config rfl 0 (by decide) (by decide)).trans (by decide)

/-- Claim C3: on the Daily basis every injection's duration is the number
of whole days from the injection date to the end date (the elapsed time is
an exact multiple of a day, so its ceiling is the day difference itself),
clamped to 0 when negative. -/
theorem c3_daily_duration (cfg : CCAConfig)
    (h : cfg.calculationBase = CalculationBase.journalier)
    (i : Nat) (h1 : i < cfg.periods.length)
    (h2 : i < (calculateCCAResults cfg).length) :
    ((calculateCCAResults cfg).get ⟨i, h2⟩).durationValue =
      max 0 (daysFromCivil cfg.endDate -
        daysFromCivil (mkInjectionDate (cfg.periods.get ⟨i, h1⟩).year
          (cfg.periods.get ⟨i, h1⟩).month)) := by
  simp only [calculateCCAResults, List.get_eq_getElem, List.getElem_map, calcOne, h]
  exact durationFor_journalier _ _

/-- Witness for C3: a same-day injection (2025-02-01, end date 2025-02-01)
on the Daily basis has duration 0 days. -/
theorem c3_daily_duration_witness :
    ((calculateCCAResults c3config).get ⟨0, by decide⟩).durationValue = 0 :=
  (c3_daily_duration c3config rfl 0 (by decide) (by decide)).trans (by decide)

/-- Claim C5: in every Period Result, per part, the VAT is the pre-tax
interest times `vatRate / 100`, the VAT-inclusive interest is interest
plus VAT, and the net is the VAT-inclusive interest minus the
withholding, exactly. -/
theorem c5_per_part_identities (cfg : CCAConfig) (r : CalculationResult)
    (hr : r ∈ calculateCCAResults cfg) :
    r.tva1 = r.interestHT1 * (cfg.tvaRate / 100) ∧
    r.interestTTC1 = r.interestHT1 + r.tva1 ∧
    r.net1 = r.interestTTC1 - r.ras1 ∧
    r.tva2 = r.interestHT2 * (cfg.tvaRate / 100) ∧
    r.interestTTC2 = r.interestHT2 + r.tva2 ∧
    r.net2 = r.interestTTC2 - r.ras2 := by
  rw [calculateCCAResults] at hr
  obtain ⟨p, _, rfl⟩ := List.mem_map.mp hr
  simp [calcOne]

/-- Witness for C5: the worked scenario's Period Result satisfies the
per-part VAT / VAT-inclusive / net identities. -/
theorem c5_per_part_identities_witness :
    (calculateCCAResults c1config).headI.tva1 =
      (calculateCCAResults c1config).headI.interestHT1 * (c1config.tvaRate / 100) ∧
    (calculateCCAResults c1config).headI.interestTTC1 =
      (calculateCCAResults c1config).headI.interestHT1 +
        (calculateCCAResults c1config).headI.tva1 ∧
    (calculateCCAResults c1config).headI.net1 =
      (calculateCCAResults c1config).headI.interestTTC1 -
        (calculateCCAResults c1config).headI.ras1 ∧
    (calculateCCAResults c1config).headI.tva2 =
      (calculateCCAResults c1config).headI.interestHT2 * (c1config.tvaRate / 100) ∧
    (calculateCCAResults c1config).headI.interestTTC2 =
      (calculateCCAResults c1config).headI.interestHT2 +
        (calculateCCAResults c1config).headI.tva2 ∧
    (calculateCCAResults c1config).headI.net2 =
      (calculateCCAResults c1config).headI.interestTTC2 -
        (calculateCCAResults c1config).headI.ras2 :=
  c5_per_part_identities c1config (calculateCCAResults c1config).headI
    (List.mem_cons_self _ _)

/-- Claim C6: every Period Result reports percentages summing to 100
(part 2's percentage is derived as `100 - part1_pct`), and part amounts
`total * part1_pct / 100` and `total * (1 - part1_pct / 100)`. -/
theorem c6_split_invariant (cfg : CCAConfig) (r : CalculationResult)
    (hr : r ∈ calculateCCAResults cfg) :
    r.pctPart1 + r.pctPart2 = 100 ∧
    r.montantPart1 = r.amountTotal * (r.pctPart1 / 100) ∧
    r.montantPart2 = r.amountTotal * (1 - r.pctPart1 / 100) := by
  rw [calculateCCAResults] at hr
  obtain ⟨p, _, rfl⟩ := List.mem_map.mp hr
  refine ⟨?_, ?_, ?_⟩ <;> simp [calcOne]

/-- Witness for C6: the worked scenario's Period Result satisfies the
percentage and amount-split identities. -/
theorem c6_split_invariant_witness :
    (calculateCCAResults c1config).headI.pctPart1 +
      (calculateCCAResults c1config).headI.pctPart2 = 100 ∧
    (calculateCCAResults c1config).headI.montantPart1 =
      (calculateCCAResults c1config).headI.amountTotal *
        ((calculateCCAResults c1config).headI.pctPart1 / 100) ∧
    (calculateCCAResults c1config).headI.montantPart2 =
      (calculateCCAResults c1config).headI.amountTotal *
        (1 - (calculateCCAResults c1config).headI.pctPart1 / 100) :=
  c6_split_invariant c1config (calculateCCAResults c1config).headI
    (List.mem_cons_self _ _)

theorem foldl_sumStep (l : List CalculationResult) (acc : FinancialSummary) :
    l.foldl sumStep acc = addSummary acc (listSummary l) := by
  induction l generalizing acc with
  | nil => ext <;> simp [addSummary, listSummary]
  | cons r t ih =>
      rw [List.foldl_cons, ih]
      ext <;> simp [addSummary, listSummary, sumStep] <;> ring

/-- `summarizeResults` computes, for every field, the plain sum of that
field's contribution over the input list. -/
theorem summarizeResults_eq (l : List CalculationResult) :
    summarizeResults l = listSummary l := by
  rw [summarizeResults, foldl_sumStep]
  ext <;> simp [addSummary, zeroSummary]

theorem sum_map_add (l : List CCAPeriod) (f g : CCAPeriod → Rat) :
    (l.map (fun x => f x + g x)).sum = (l.map f).sum + (l.map g).sum := by
  induction l with
  | nil => simp
  | cons x t ih => simp [ih]; ring

/-- Claim C8: with no injections the Monthly Accrual Walker returns the
empty sequence, and the Aggregator on an empty Period Result list returns
the all-zero Financial Summary. -/
theorem c8_empty_inputs (cfg : CCAConfig) (h : cfg.periods = []) :
    calculateMonthlyAccruals cfg = [] ∧ summarizeResults [] = zeroSummary := by
  obtain ⟨ps, ar, tr, rm, rp, ed, cb⟩ := cfg
  subst h
  exact ⟨rfl, rfl⟩

/-- Witness for C8: the worked scenario with its injections removed yields
an empty monthly ledger and an all-zero summary. -/
theorem c8_empty_inputs_witness :
    calculateMonthlyAccruals c8config = [] ∧ summarizeResults [] = zeroSummary :=
  c8_empty_inputs c8config rfl

/-- Claim C9: the Aggregator is order-independent — folding any permutation
of a Period Result list yields the same Financial Summary, exactly, over
the rationals. -/
theorem c9_summary_perm (l l' : List CalculationResult) (h : l.Perm l') :
    summarizeResults l = summarizeResults l' := by
  rw [summarizeResults_eq, summarizeResults_eq]
  ext <;> exact List.Perm.sum_eq (h.map _)

/-- Witness for C9: swapping two concrete Period Results leaves the
Financial Summary unchanged. -/
theorem c9_summary_perm_witness :
    summarizeResults [sampleResA, sampleResB] =
      summarizeResults [sampleResB, sampleResA] :=
  c9_summary_perm _ _ (List.Perm.swap sampleResB sampleResA [])

/-- Claim C10: every Financial Summary the Aggregator produces from the
Period Evaluator's output satisfies the cross-field consistency equations:
combined interest and withholding are the sums of their per-part
counterparts, VAT-inclusive interest is pre-tax interest plus VAT, and the
total repayment is capital plus VAT-inclusive interest, exactly. -/
theorem c10_summary_consistency (cfg : CCAConfig) :
    (summarizeResults (calculateCCAResults cfg)).totalInterestHT =
      (summarizeResults (calculateCCAResults cfg)).totalInterestHT1 +
        (summarizeResults (calculateCCAResults cfg)).totalInterestHT2 ∧
    (summarizeResults (calculateCCAResults cfg)).totalRAS =
      (summarizeResults (calculateCCAResults cfg)).totalRAS1 +
        (summarizeResults (calculateCCAResults cfg)).totalRAS2 ∧
    (summarizeResults (calculateCCAResults cfg)).totalInterestTTC =
      (summarizeResults (calculateCCAResults cfg)).totalInterestHT +
        (summarizeResults (calculateCCAResults cfg)).totalTVA ∧
    (summarizeResults (calculateCCAResults cfg)).totalRepayment =
      (summarizeResults (calculateCCAResults cfg)).totalCapital +
        (summarizeResults (calculateCCAResults cfg)).totalInterestTTC := by
  rw [summarizeResults_eq]
  simp only [listSummary, calculateCCAResults, List.map_map, Function.comp]
  refine ⟨sum_map_add _ _ _, sum_map_add _ _ _, ?_, ?_⟩
  · rw [← sum_map_add]
    refine congrArg List.sum (List.map_congr_left ?_)
    intro p _
    simp [calcOne]
    ring
  · rw [← sum_map_add]
    refine congrArg List.sum (List.map_congr_left ?_)
    intro p _
    simp only [Function.comp_apply]
    ring

theorem dateLt_iff (a b : CCADate) :
    dateLt a b = true ↔
      (a.year < b.year ∨ (a.year = b.year ∧
        (a.month < b.month ∨ (a.month = b.month ∧ a.day < b.day)))) := by
  simp [dateLt]

theorem dateLE_iff (a b : CCADate) :
    dateLE a b = true ↔
      ¬(b.year < a.year ∨ (b.year = a.year ∧
        (b.month < a.month ∨ (b.month = a.month ∧ b.day < a.day)))) := by
  simp only [dateLE, dateLt, Bool.not_eq_true', Bool.or_eq_false_iff,
    Bool.and_eq_false_iff, decide_eq_false_iff_not, decide_eq_true_eq]
  omega

theorem monthIndex_firstOfMonthDate (idx : Int) :
    monthIndex (firstOfMonthDate idx) = idx := by
  simp only [monthIndex, firstOfMonthDate]
  omega

theorem normDate_firstOfMonthDate (idx : Int) : NormDate (firstOfMonthDate idx) := by
  refine ⟨rfl, ?_, ?_⟩ <;> simp only [firstOfMonthDate] <;> omega

theorem normDate_mkInjectionDate (y m : Int) : NormDate (mkInjectionDate y m) := by
  refine ⟨rfl, ?_, ?_⟩ <;> simp only [mkInjectionDate] <;> omega

theorem monthIndex_mkInjectionDate (y m : Int) :
    monthIndex (mkInjectionDate y m) = y * 12 + (m - 1) := by
  simp only [monthIndex, mkInjectionDate]
  omega

theorem firstOfMonthDate_monthIndex (d : CCADate) (hd : NormDate d) :
    firstOfMonthDate (monthIndex d) = d := by
  obtain ⟨h1, h2, h3⟩ := hd
  ext <;> simp only [firstOfMonthDate, monthIndex] <;> omega

/-- On first-of-month dates with in-range months, the `Date` order `<` is
exactly the order of linear month indices. -/
theorem dateLt_norm_iff (a b : CCADate) (ha : NormDate a) (hb : NormDate b) :
    dateLt a b = true ↔ monthIndex a < monthIndex b := by
  obtain ⟨ha1, ha2, ha3⟩ := ha
  obtain ⟨hb1, hb2, hb3⟩ := hb
  rw [dateLt_iff]
  simp only [monthIndex]
  omega

/-- On first-of-month dates with in-range months, the `Date` order `<=` is
exactly the order of linear month indices. -/
theorem dateLE_norm_iff (a b : CCADate) (ha : NormDate a) (hb : NormDate b) :
    dateLE a b = true ↔ monthIndex a ≤ monthIndex b := by
  obtain ⟨ha1, ha2, ha3⟩ := ha
  obtain ⟨hb1, hb2, hb3⟩ := hb
  rw [dateLE_iff]
  simp only [monthIndex]
  omega

/-- The walker's loop guard `curr <= endLimit`, for a cursor at the first
of the month with index `i` and a calendar end date, holds exactly when
`i` is at most the end date's month index. -/
theorem walker_guard_iff (i : Int) (e : CCADate) (hm1 : 1 ≤ e.month)
    (hm2 : e.month ≤ 12) (hd : 1 ≤ e.day) :
    dateLE (firstOfMonthDate i) e = true ↔ i ≤ monthIndex e := by
  rw [dateLE_iff]
  simp only [firstOfMonthDate, monthIndex]
  omega

theorem minInjDate_cons (p : CCAPeriod) (t : List CCAPeriod) (init : CCADate) :
    minInjDate (p :: t) init =
      minInjDate t
        (if dateLt (mkInjectionDate p.year p.month) init then
          mkInjectionDate p.year p.month
        else init) := rfl

theorem normDate_minInjDate (l : List CCAPeriod) (init : CCADate)
    (h : NormDate init) : NormDate (minInjDate l init) := by
  induction l generalizing init with
  | nil => exact h
  | cons p t ih =>
      rw [minInjDate_cons]
      split
      · exact ih _ (normDate_mkInjectionDate _ _)
      · exact ih _ h

theorem minInjDate_le_init (l : List CCAPeriod) (init : CCADate)
    (h : NormDate init) : monthIndex (minInjDate l init) ≤ monthIndex init := by
  induction l generalizing init with
  | nil => exact le_refl _
  | cons p t ih =>
      rw [minInjDate_cons]
      by_cases hlt : dateLt (mkInjectionDate p.year p.month) init = true
      · rw [if_pos hlt]
        refine le_trans (ih _ (normDate_mkInjectionDate _ _)) ?_
        exact le_of_lt ((dateLt_norm_iff _ _ (normDate_mkInjectionDate _ _) h).mp hlt)
      · rw [if_neg hlt]
        exact ih _ h

theorem minInjDate_le_mem (l : List CCAPeriod) (init : CCADate)
    (h : NormDate init) (q : CCAPeriod) (hq : q ∈ l) :
    monthIndex (minInjDate l init) ≤
      monthIndex (mkInjectionDate q.year q.month) := by
  induction l generalizing init with
  | nil => cases hq
  | cons p t ih =>
      rw [minInjDate_cons]
      rcases List.mem_cons.mp hq with heq | hq'
      · subst heq
        by_cases hlt : dateLt (mkInjectionDate q.year q.month) init = true
        · rw [if_pos hlt]
          exact minInjDate_le_init t _ (normDate_mkInjectionDate _ _)
        · rw [if_neg hlt]
          refine le_trans (minInjDate_le_init t init h) ?_
          have hiff := dateLt_norm_iff (mkInjectionDate q.year q.month) init
            (normDate_mkInjectionDate _ _) h
          simp only [hiff] at hlt
          omega
      · by_cases hlt : dateLt (mkInjectionDate p.year p.month) init = true
        · rw [if_pos hlt]
          exact ih _ (normDate_mkInjectionDate _ _) hq'
        · rw [if_neg hlt]
          exact ih _ h hq'

theorem minInjDate_mem (l : List CCAPeriod) (init : CCADate) :
    minInjDate l init = init ∨
      ∃ p ∈ l, minInjDate l init = mkInjectionDate p.year p.month := by
  induction l generalizing init with
  | nil => exact Or.inl rfl
  | cons p t ih =>
      rw [minInjDate_cons]
      by_cases hlt : dateLt (mkInjectionDate p.year p.month) init = true
      · rw [if_pos hlt]
        rcases ih (mkInjectionDate p.year p.month) with heq | ⟨q, hq, heq⟩
        · exact Or.inr ⟨p, List.mem_cons_self _ _, heq⟩
        · exact Or.inr ⟨q, List.mem_cons_of_mem _ hq, heq⟩
      · rw [if_neg hlt]
        rcases ih init with heq | ⟨q, hq, heq⟩
        · exact Or.inl heq
        · exact Or.inr ⟨q, List.mem_cons_of_mem _ hq, heq⟩

theorem monthRecord_year (cfg : CCAConfig) (idx : Int) :
    (monthRecord cfg idx).year = idx / 12 := rfl

theorem monthRecord_month (cfg : CCAConfig) (idx : Int) :
    (monthRecord cfg idx).month = idx % 12 + 1 := rfl

theorem walkerRange_length (cfg : CCAConfig) (s e : Int) :
    (walkerRange cfg s e).length = (e + 1 - s).toNat := by
  simp [walkerRange]

theorem walkerRange_get (cfg : CCAConfig) (s e : Int) (i : Nat)
    (h : i < (walkerRange cfg s e).length) :
    (walkerRange cfg s e).get ⟨i, h⟩ = monthRecord cfg (s + (i : Int)) := by
  simp [walkerRange]

/-- Every record of the walker's loop output is `monthRecord` at some index
in the walked range. -/
theorem walkerRange_mem (cfg : CCAConfig) (s e : Int) (r : MonthlyAccrual)
    (hr : r ∈ walkerRange cfg s e) :
    ∃ idx : Int, s ≤ idx ∧ idx ≤ e ∧ r = monthRecord cfg idx := by
  unfold walkerRange at hr
  obtain ⟨i, hi, rfl⟩ := List.mem_map.mp hr
  rw [List.mem_range] at hi
  exact ⟨s + (i : Int), by omega, by omega, rfl⟩

theorem walkerRange_map_idx (cfg : CCAConfig) (s e : Int) :
    (walkerRange cfg s e).map (fun a => a.year * 12 + (a.month - 1)) =
      (List.range (e + 1 - s).toNat).map (fun i : Nat => s + (i : Int)) := by
  unfold walkerRange
  rw [List.map_map]
  refine List.map_congr_left ?_
  intro i _
  simp only [Function.comp_apply, monthRecord_year, monthRecord_month]
  omega

theorem walkerRange_head (cfg : CCAConfig) (s e : Int) (h : s ≤ e) :
    (walkerRange cfg s e).head? = some (monthRecord cfg s) := by
  unfold walkerRange
  have hn : (e + 1 - s).toNat = ((e + 1 - s).toNat - 1) + 1 := by omega
  rw [hn, List.range_succ_eq_map, List.map_cons, List.head?_cons]
  norm_num

theorem walkerRange_getLast (cfg : CCAConfig) (s e : Int) (h : s ≤ e) :
    (walkerRange cfg s e).getLast? = some (monthRecord cfg e) := by
  unfold walkerRange
  rw [List.getLast?_eq_getElem?]
  simp only [List.length_map, List.length_range]
  have hlt : (e + 1 - s).toNat - 1 < (e + 1 - s).toNat := by omega
  rw [List.getElem?_map, List.getElem?_range hlt, Option.map_some']
  have hidx : s + ((((e + 1 - s).toNat - 1 : Nat)) : Int) = e := by omega
  rw [hidx]

/-- Claim C4: with at least one injection (and the window well-formed: the
end date a calendar date whose month is on/after the earliest injection's
month), the walker produces exactly one record per calendar month, in
order, stepping one month at a time: the records' month indices are the
consecutive range from the earliest injection's month index to the end
date's month index; the first record is the month of the earliest
injection (which is one of the injections' months and is minimal among
them) and the last record is the month containing the end date. -/
theorem c4_walker_months (cfg : CCAConfig) (h0 : cfg.periods ≠ [])
    (hm1 : 1 ≤ cfg.endDate.month) (hm2 : cfg.endDate.month ≤ 12)
    (hse : monthIndex (earliestInjectionDate cfg) ≤ monthIndex cfg.endDate) :
    ((calculateMonthlyAccruals cfg).map (fun a => a.year * 12 + (a.month - 1)) =
      (List.range (monthIndex cfg.endDate + 1 -
          monthIndex (earliestInjectionDate cfg)).toNat).map
        (fun i : Nat => monthIndex (earliestInjectionDate cfg) + (i : Int))) ∧
    (∃ p ∈ cfg.periods,
      earliestInjectionDate cfg = mkInjectionDate p.year p.month) ∧
    (∀ p ∈ cfg.periods,
      monthIndex (earliestInjectionDate cfg) ≤
        monthIndex (mkInjectionDate p.year p.month)) ∧
    ((calculateMonthlyAccruals cfg).head?.map (fun a => (a.year, a.month)) =
      some ((earliestInjectionDate cfg).year, (earliestInjectionDate cfg).month)) ∧
    ((calculateMonthlyAccruals cfg).getLast?.map (fun a => (a.year, a.month)) =
      some (cfg.endDate.year, cfg.endDate.month)) := by
  obtain ⟨ps, ar, tr, rm, rp, ed, cb⟩ := cfg
  cases ps with
  | nil => exact absurd rfl h0
  | cons p0 t =>
      simp only [CCAConfig.periods, CCAConfig.endDate] at *
      have hE : earliestInjectionDate ⟨p0 :: t, ar, tr, rm, rp, ed, cb⟩ =
          minInjDate (p0 :: t) (mkInjectionDate p0.year p0.month) := rfl
      have hnormE :
          NormDate (minInjDate (p0 :: t) (mkInjectionDate p0.year p0.month)) :=
        normDate_minInjDate _ _ (normDate_mkInjectionDate _ _)
      have hW : calculateMonthlyAccruals ⟨p0 :: t, ar, tr, rm, rp, ed, cb⟩ =
          walkerRange ⟨p0 :: t, ar, tr, rm, rp, ed, cb⟩
            (monthIndex (minInjDate (p0 :: t) (mkInjectionDate p0.year p0.month)))
            (monthIndex ed) := rfl
      rw [hE] at hse ⊢
      rw [hW]
      have hse' : monthIndex (minInjDate (p0 :: t) (mkInjectionDate p0.year p0.month)) ≤
          monthIndex ed := hse
      refine ⟨walkerRange_map_idx _ _ _, ?_, ?_, ?_, ?_⟩
      · rcases minInjDate_mem (p0 :: t) (mkInjectionDate p0.year p0.month) with
          heq | ⟨q, hq, heq⟩
        · exact ⟨p0, List.mem_cons_self _ _, heq⟩
        · exact ⟨q, hq, heq⟩
      · intro p hp
        exact minInjDate_le_mem _ _ (normDate_mkInjectionDate _ _) p hp
      · rw [walkerRange_head _ _ _ hse', Option.map_some', monthRecord_year,
          monthRecord_month]
        obtain ⟨d1, d2, d3⟩ := hnormE
        simp only [Option.some.injEq, Prod.mk.injEq, monthIndex]
        omega
      · rw [walkerRange_getLast _ _ _ hse', Option.map_some', monthRecord_year,
          monthRecord_month]
        simp only [Option.some.injEq, Prod.mk.injEq, monthIndex]
        omega

/-- Witness for C4: in the worked scenario the ledger covers exactly the
month indices of 2025-02 through 2025-05, starting at the injection month
and ending at the end date's month. -/
theorem c4_walker_months_witness :
    ((calculateMonthlyAccruals c1config).map (fun a => a.year * 12 + (a.month - 1)) =
      [24301, 24302, 24303, 24304]) ∧
    ((calculateMonthlyAccruals c1config).head?.map (fun a => (a.year, a.month)) =
      some (2025, 2)) ∧
    ((calculateMonthlyAccruals c1config).getLast?.map (fun a => (a.year, a.month)) =
      some (2025, 5)) := by
  obtain ⟨h1, _, _, h4, h5⟩ :=
    c4_walker_months c1config (by decide) (by decide) (by decide) (by decide)
  exact ⟨h1.trans (by decide), h4.trans (by decide), h5.trans (by decide)⟩

theorem accrueStep_fst (cfg : CCAConfig) (curr : CCADate) (a : Rat × Rat × Rat)
    (p : CCAPeriod) :
    (accrueStep cfg curr a p).1 =
      if dateLE (mkInjectionDate p.year p.month) curr then a.1 + p.amount
      else a.1 := by
  simp only [accrueStep]
  split <;> rfl

/-- The first accumulator component of the walker's per-month fold — the
active capital — is the sum of the amounts of the injections whose
injection date is on or before the cursor. -/
theorem foldl_accrue_fst (cfg : CCAConfig) (curr : CCADate)
    (l : List CCAPeriod) (a : Rat × Rat × Rat) :
    (l.foldl (accrueStep cfg curr) a).1 =
      a.1 + ((l.filter
          (fun p => dateLE (mkInjectionDate p.year p.month) curr)).map
        (fun p => p.amount)).sum := by
  induction l generalizing a with
  | nil => simp
  | cons p t ih =>
      rw [List.foldl_cons, ih, accrueStep_fst, List.filter_cons]
      by_cases h : dateLE (mkInjectionDate p.year p.month) curr = true
      · simp [h]
        ring
      · simp [h]

theorem monthRecord_activeCapital (cfg : CCAConfig) (idx : Int) :
    (monthRecord cfg idx).activeCapital =
      ((cfg.periods.filter (fun p =>
          dateLE (mkInjectionDate p.year p.month) (firstOfMonthDate idx))).map
        (fun p => p.amount)).sum := by
  show (cfg.periods.foldl (accrueStep cfg (firstOfMonthDate idx)) (0, 0, 0)).1 = _
  rw [foldl_accrue_fst]
  simp

/-- Weakening the filter predicate can only grow the sum of a list of
non-negative amounts. -/
theorem filter_sum_mono (l : List CCAPeriod) (hz : ∀ p ∈ l, 0 ≤ p.amount)
    (q r : CCAPeriod → Bool) (himp : ∀ p ∈ l, q p = true → r p = true) :
    ((l.filter q).map (fun p => p.amount)).sum ≤
      ((l.filter r).map (fun p => p.amount)).sum := by
  induction l with
  | nil => simp
  | cons p t ih =>
      have hz' : ∀ x ∈ t, 0 ≤ x.amount :=
        fun x hx => hz x (List.mem_cons_of_mem _ hx)
      have himp' : ∀ x ∈ t, q x = true → r x = true :=
        fun x hx => himp x (List.mem_cons_of_mem _ hx)
      have ht := ih hz' himp'
      rw [List.filter_cons, List.filter_cons]
      by_cases hq : q p = true
      · have hr := himp p (List.mem_cons_self _ _) hq
        simp only [hq, hr, if_true, List.map_cons, List.sum_cons]
        linarith
      · by_cases hr : r p = true
        · have hp0 := hz p (List.mem_cons_self _ _)
          simp [hq, hr]
          linarith
        · simp [hq, hr]
          exact ht

/-- Claim C7: every walker record's active capital is the sum of the
amounts of the injections whose injection date (first of their month) is
on or before the first day of the record's month, and — with the data
model's non-negative amounts — active capital never decreases from one
record to the next. -/
theorem c7_active_capital (cfg : CCAConfig)
    (hz : ∀ p ∈ cfg.periods, 0 ≤ p.amount) :
    (∀ r ∈ calculateMonthlyAccruals cfg,
        r.activeCapital =
          ((cfg.periods.filter (fun p =>
              dateLE (mkInjectionDate p.year p.month)
                ⟨r.year, r.month, 1⟩)).map (fun p => p.amount)).sum) ∧
    (∀ (i : Nat) (h1 : i < (calculateMonthlyAccruals cfg).length)
        (h2 : i + 1 < (calculateMonthlyAccruals cfg).length),
      ((calculateMonthlyAccruals cfg).get ⟨i, h1⟩).activeCapital ≤
        ((calculateMonthlyAccruals cfg).get ⟨i + 1, h2⟩).activeCapital) := by
  obtain ⟨ps, ar, tr, rm, rp, ed, cb⟩ := cfg
  cases ps with
  | nil =>
      constructor
      · intro r hr
        simp [calculateMonthlyAccruals] at hr
      · intro i h1 h2
        simp [calculateMonthlyAccruals] at h1
  | cons p0 t =>
      simp only [CCAConfig.periods] at *
      have hW : calculateMonthlyAccruals ⟨p0 :: t, ar, tr, rm, rp, ed, cb⟩ =
          walkerRange ⟨p0 :: t, ar, tr, rm, rp, ed, cb⟩
            (monthIndex (minInjDate (p0 :: t) (mkInjectionDate p0.year p0.month)))
            (monthIndex ed) := rfl
      rw [hW]
      constructor
      · intro r hr
        obtain ⟨idx, _, _, rfl⟩ := walkerRange_mem _ _ _ r hr
        have hcur : (⟨(monthRecord ⟨p0 :: t, ar, tr, rm, rp, ed, cb⟩ idx).year,
            (monthRecord ⟨p0 :: t, ar, tr, rm, rp, ed, cb⟩ idx).month, 1⟩ :
              CCADate) = firstOfMonthDate idx := rfl
        rw [hcur]
        exact monthRecord_activeCapital _ idx
      · intro i h1 h2
        rw [walkerRange_get, walkerRange_get, monthRecord_activeCapital,
          monthRecord_activeCapital]
        apply filter_sum_mono
        · exact hz
        · intro p _ hle
          have hn1 := normDate_mkInjectionDate p.year p.month
          rw [dateLE_norm_iff _ _ hn1 (normDate_firstOfMonthDate _),
            monthIndex_firstOfMonthDate] at hle ⊢
          omega

/-- Witness for C7: in the worked scenario (non-negative amounts) the
active capital of the first ledger record is at most that of the second. -/
theorem c7_active_capital_witness :
    ((calculateMonthlyAccruals c1config).get ⟨0, by decide⟩).activeCapital ≤
      ((calculateMonthlyAccruals c1config).get ⟨1, by decide⟩).activeCapital :=
  (c7_active_capital c1config (by decide)).2 0 (by decide) (by decide)
